import Mathlib

/-!
Verification of the WindSE `UnsteadySolver` (SolverManager.py).

The scalar timestep-control logic, the bilinear inflow interpolator and the
error guards are embedded over exact rationals (Python floats are modelled as
exact arithmetic); the actuator-disk force expressions and rotation matrices,
which involve pi, sin, cos and exp, are embedded over the reals.
-/

namespace WindSE

/-! ## Timestep adaptation (UnsteadySolver.AdjustTimestepSize) -/

/-- CFL target set at the top of AdjustTimestepSize: cfl_target = 0.2. -/
def cfl_target : ℚ := 2/10

/-- Minimum timestep size set in AdjustTimestepSize: dt_min = 0.01. -/
def dt_min : ℚ := 1/100

/-- Python float modulus, x % p = x - p * floor (x / p), as used for
`simTime % saveInterval` (saveInterval is positive there). -/
def fmod (x p : ℚ) : ℚ := x - p * (⌊x / p⌋ : ℚ)

/-- Raw CFL-based timestep of AdjustTimestepSize before the relaxation branch:
dudt = u_max - u_max_k1 (first-order backward difference),
u_max_projected = u_max + dudt,
dt_new = cfl_target * hmin / u_max_projected. -/
def dtNewRaw (hmin u_max u_max_k1 : ℚ) : ℚ :=
  let dudt := u_max - u_max_k1
  let u_max_projected := u_max + dudt
  cfl_target * hmin / u_max_projected

/-- Candidate timestep after the under-relaxation branch of AdjustTimestepSize:
an increase over the current dt is relaxed with SOR = 0.5
(dt_new := SOR*dt_new + (1-SOR)*dt); a decrease passes through unchanged. -/
def dtCandidate (dt hmin u_max u_max_k1 : ℚ) : ℚ :=
  let dt_new := dtNewRaw hmin u_max u_max_k1
  if dt_new > dt then
    let SOR : ℚ := 1/2
    SOR * dt_new + (1 - SOR) * dt
  else dt_new

/-- Save-boundary clamp of AdjustTimestepSize:
time_remaining = saveInterval - simTime % saveInterval; if
dt_new + dt_min >= time_remaining the stored timestep becomes time_remaining
and save_next_timestep is set. Returns (stored dt, save_next_timestep). -/
def saveClamp (saveInterval simTime dt_new : ℚ) : ℚ × Bool :=
  let time_remaining := saveInterval - fmod simTime saveInterval
  if dt_new + dt_min ≥ time_remaining then (time_remaining, true) else (dt_new, false)

/-- UnsteadySolver.AdjustTimestepSize: relaxed CFL candidate followed by the
save-boundary clamp; the first component is the dt stored into
`self.problem.dt` and the second is the returned save_next_timestep flag. -/
def adjustTimestepSize (saveInterval simTime u_max u_max_k1 dt hmin : ℚ) : ℚ × Bool :=
  saveClamp saveInterval simTime (dtCandidate dt hmin u_max u_max_k1)

/-! ## Scalar state of the unsteady time loop (UnsteadySolver.Solve) -/

/-- Scalar orchestration state of the unsteady time loop: simulation time,
current timestep, number of saved files, and the save_next_timestep flag. -/
structure LoopState where
  simTime : ℚ
  dt : ℚ
  saveCount : ℕ
  saveNext : Bool

/-- One iteration of the while-loop in UnsteadySolver.Solve restricted to its
scalar state: simTime += dt; if save_next_timestep then saveCount += 1 and
simTime := saveInterval*saveCount; then AdjustTimestepSize updates dt and the
flag. The peak velocities (u_max, u_max_k1) produced by the linear solves of
this iteration are supplied as data. -/
def loopStep (saveInterval hmin : ℚ) (uPair : ℚ × ℚ) (s : LoopState) : LoopState :=
  let simTime1 := s.simTime + s.dt
  let saveCount1 := if s.saveNext then s.saveCount + 1 else s.saveCount
  let simTime2 := if s.saveNext then saveInterval * (saveCount1 : ℚ) else simTime1
  let res := adjustTimestepSize saveInterval simTime2 uPair.1 uPair.2 s.dt hmin
  ⟨simTime2, res.1, saveCount1, res.2⟩

/-- The while-loop of UnsteadySolver.Solve over a finite trace of per-iteration
peak-velocity pairs; the loop guard `simTime < tFinal` is checked at the top of
every iteration. -/
def runLoop (saveInterval hmin tFinal : ℚ) : List (ℚ × ℚ) → LoopState → LoopState
  | [], s => s
  | uPair :: rest, s =>
    if s.simTime < tFinal then
      runLoop saveInterval hmin tFinal rest (loopStep saveInterval hmin uPair s)
    else s

/-- Entry of UnsteadySolver.Solve: the problem-type guard runs first; only when
the configured problem type is "unsteady" does the time loop execute, otherwise
a ValueError is raised with the offending type interpolated into the message. -/
def unsteadySolve (ptype : String) (saveInterval hmin tFinal : ℚ)
    (us : List (ℚ × ℚ)) (s : LoopState) : Except String LoopState :=
  if ptype = "unsteady" then
    Except.ok (runLoop saveInterval hmin tFinal us s)
  else
    Except.error ("UnsteadySolver can only be run with ProblemType = unsteady, not " ++ ptype)

/-! ## Bilinear interpolation (UnsteadySolver.bilinearInterp) -/

/-- Body of the pointer-search while-loop of bilinearInterp: starting from p,
advance while xs[p] < xi and p < len(xs)-1. The fuel argument bounds the number
of iterations; `findPtr` supplies enough fuel for the loop to run to its exit
condition. -/
def findPtrAux (xs : List ℚ) (xi : ℚ) : ℕ → ℕ → ℕ
  | p, 0 => p
  | p, Nat.succ fuel =>
    if xs.getD p 0 < xi ∧ p < xs.length - 1 then findPtrAux xs xi (p + 1) fuel else p

/-- The pointer search of bilinearInterp: xptr = 1; while x[xptr] < xi and
xptr < len(x)-1: xptr += 1. -/
def findPtr (xs : List ℚ) (xi : ℚ) : ℕ := findPtrAux xs xi 1 xs.length

/-- The corner-weighted average formed at the end of bilinearInterp, with the
four bracketing coordinates x1 = x[xptr-1], x2 = x[xptr], y1 = y[yptr-1],
y2 = y[yptr] and corner values u11, u12, u21, u22 made explicit. -/
def interpFormula (xi yi x1 x2 y1 y2 u11 u12 u21 u22 : ℚ) : ℚ :=
  1 / ((x2 - x1) * (y2 - y1)) *
    (u11 * (x2 - xi) * (y2 - yi) + u12 * (x2 - xi) * (yi - y1) +
      u21 * (xi - x1) * (y2 - yi) + u22 * (xi - x1) * (yi - y1))

/-- One component of UnsteadySolver.bilinearInterp: locate the bracketing cell
with the two linear searches, read the four surrounding nodes u[yptr-1..yptr,
xptr-1..xptr] (rows indexed by y, columns by x), form the four area weights and
divide by the cell area. -/
def bilinearInterp1 (xi yi : ℚ) (x y : List ℚ) (u : List (List ℚ)) : ℚ :=
  let xptr := findPtr x xi
  let yptr := findPtr y yi
  let u11 := (u.getD (yptr - 1) []).getD (xptr - 1) 0
  let u12 := (u.getD yptr []).getD (xptr - 1) 0
  let u21 := (u.getD (yptr - 1) []).getD xptr 0
  let u22 := (u.getD yptr []).getD xptr 0
  let a11 := u11 * (x.getD xptr 0 - xi) * (y.getD yptr 0 - yi)
  let a12 := u12 * (x.getD xptr 0 - xi) * (yi - y.getD (yptr - 1) 0)
  let a21 := u21 * (xi - x.getD (xptr - 1) 0) * (y.getD yptr 0 - yi)
  let a22 := u22 * (xi - x.getD (xptr - 1) 0) * (yi - y.getD (yptr - 1) 0)
  1 / ((x.getD xptr 0 - x.getD (xptr - 1) 0) * (y.getD yptr 0 - y.getD (yptr - 1) 0)) *
    (a11 + a12 + a21 + a22)

/-- UnsteadySolver.bilinearInterp: interpolate each grid of velList at the query
point (xi, yi). -/
def bilinearInterp (xi yi : ℚ) (x y : List ℚ) (velList : List (List (List ℚ))) : List ℚ :=
  velList.map (fun u => bilinearInterp1 xi yi x y u)

/-! ## Inlet update (UnsteadySolver.updateInletVelocityFromFile) -/

/-- UnsteadySolver.updateInletVelocityFromFile on its numeric core. The
PyTurbSim array uTotal of shape [ny, nz, ntime] is modelled as its family of
time slices `uTotal : ℕ → grid` together with the explicit slice count
numSlices = np.shape(uTotal)[2]; likewise vTotal and wTotal. The guard
`saveCount > np.shape(uTotal)[2] - 1` (integer arithmetic) raises before any
slice is extracted or interpolated; otherwise every degree-of-freedom
coordinate on the left wall (first coordinate below xRange0 + 1e-6) receives
the bilinear interpolation of the three slices at its (y, z) position, and all
other rows keep their zero fill. -/
def updateInletVelocityFromFile (saveCount numSlices : ℕ)
    (uTotal vTotal wTotal : ℕ → List (List ℚ)) (y z : List ℚ)
    (xRange0 : ℚ) (coords : List (ℚ × ℚ × ℚ)) : Except String (List (List ℚ)) :=
  if (saveCount : ℤ) > (numSlices : ℤ) - 1 then
    Except.error "Ran out of turbulent inflow files! Run PyTurbSim with longer tFinal."
  else
    let u := uTotal saveCount
    let v := vTotal saveCount
    let w := wTotal saveCount
    Except.ok (coords.map fun c =>
      if c.1 < xRange0 + 1/1000000 then bilinearInterp c.2.1 c.2.2 y z [u, v, w]
      else [0, 0, 0])

/-! ## Turbine force (UnsteadySolver.UpdateTurbineForce), 2D branch, over ℝ -/

/-- Turbine parameters read from the farm arrays inside UpdateTurbineForce:
position (mx, my), yaw (myaw), full thickness W, rotor diameter RD and axial
induction factor ma. -/
structure Turbine where
  x : ℝ
  y : ℝ
  yaw : ℝ
  W : ℝ
  RD : ℝ
  ma : ℝ

/-- Radius of the two platform arms: 189.0, or 0.0 for a single turbine per
platform. -/
noncomputable def platformRad (tpp : ℕ) : ℝ := if tpp = 1 then 0 else 189

/-- Angle between the two platform arms: phi = pi/3. -/
noncomputable def platformPhi : ℝ := Real.pi / 3

/-- Axial offset from the hinge to each rotor: rad * cos(phi/2). -/
noncomputable def xpOffset (tpp : ℕ) : ℝ := platformRad tpp * Real.cos (platformPhi / 2)

/-- Lateral offset from the hinge to each rotor: rad * sin(phi/2). -/
noncomputable def ypOffset (tpp : ℕ) : ℝ := platformRad tpp * Real.sin (platformPhi / 2)

/-- Thrust factor F of UpdateTurbineForce as a function of the rotor radius R,
the induction factor ma and the (signed, in 2D) radial coordinate r:
F = 4*0.5*(pi*R^2)*ma/(1-ma)*(r/R*sin(pi*r/R) + 0.5) * 1.0/0.81831. -/
noncomputable def thrustF (R ma r : ℝ) : ℝ :=
  4 * 0.5 * (Real.pi * R ^ 2) * ma / (1 - ma) * (r / R * Real.sin (Real.pi * r / R) + 0.5)
    * 1.0 / 0.81831

/-- Contribution of rotor number d (the doublet index) of one turbine to the
force at a sample point p where the lagged velocity is u, following the body of
the doublet loop of UpdateTurbineForce in the 2D branch: rotate p into the
turbine frame (row vector times the rotation matrix), shift by the platform
offset, form the thickness profile T, the disk profile D and the thrust factor
F, and project along (cos yaw, sin yaw) scaled by the squared axial velocity. -/
noncomputable def rotorForceAt (tpp : ℕ) (t : Turbine) (d : ℕ) (p u : ℝ × ℝ) : ℝ × ℝ :=
  let W := t.W / 2
  let R := t.RD / 2
  let c := Real.cos t.yaw
  let s := Real.sin t.yaw
  let vx := p.1 - t.x
  let vy := p.2 - t.y
  let xs0x := vx * c + vy * s
  let xs0y := vx * (-s) + vy * c
  let xsx := xs0x - xpOffset tpp
  let xsy := xs0y - ypOffset tpp * (-1 : ℝ) ^ d
  let T := Real.exp (-(xsx / W) ^ (10 : ℕ)) / (1.902701539733748 * W)
  let D1 := (xsy / R) ^ (2 : ℕ)
  let D := Real.exp (-D1 ^ (5 : ℕ)) / (2.884512175878827 * R ^ (2 : ℕ))
  let r := xsy
  let F := thrustF R t.ma r
  let uD := u.1 * c + u.2 * s
  (F * T * D * c * uD ^ (2 : ℕ), F * T * D * s * uD ^ (2 : ℕ))

/-- The accumulation loops of UpdateTurbineForce at one sample point: for every
turbine k of the farm and every doublet, add the rotor contribution into the
running force vector, started from zeros. This is the value of tf_array at
one degree of freedom before sub-threshold truncation. -/
noncomputable def farmForceAt (tpp : ℕ) (ts : List Turbine) (p u : ℝ × ℝ) : ℝ × ℝ :=
  ts.foldl
    (fun acc t => (List.range tpp).foldl (fun a d => a + rotorForceAt tpp t d p u) acc)
    (0, 0)

/-! ## Rotation matrices (UnsteadySolver.RotationMatrix) -/

/-- UnsteadySolver.RotationMatrix in the 2D case. -/
noncomputable def RotationMatrix2 (yaw : ℝ) : Matrix (Fin 2) (Fin 2) ℝ :=
  !![Real.cos yaw, -Real.sin yaw; Real.sin yaw, Real.cos yaw]

/-- UnsteadySolver.RotationMatrix in the 3D case (rotation about the vertical
axis). -/
noncomputable def RotationMatrix3 (yaw : ℝ) : Matrix (Fin 3) (Fin 3) ℝ :=
  !![Real.cos yaw, -Real.sin yaw, 0; Real.sin yaw, Real.cos yaw, 0; 0, 0, 1]

/-! ## Theorems -/

/-- Evaluation rule for the float modulus at inputs whose quotient floor is
known. -/
lemma fmod_eval (x p : ℚ) (n : ℤ) (h1 : (n : ℚ) ≤ x / p) (h2 : x / p < n + 1) :
    fmod x p = x - p * n := by
  have hfl : ⌊x / p⌋ = n := Int.floor_eq_iff.mpr ⟨h1, h2⟩
  unfold fmod
  rw [hfl]

lemma fmod_95_10 : fmod 95 10 = 5 := by
  have h := fmod_eval 95 10 9 (by norm_num) (by norm_num)
  rw [h]; norm_num

lemma fmod_2_10 : fmod 2 10 = 2 := by
  have h := fmod_eval 2 10 0 (by norm_num) (by norm_num)
  rw [h]; norm_num

lemma fmod_0_10 : fmod 0 10 = 0 := by
  have h := fmod_eval 0 10 0 (by norm_num) (by norm_num)
  rw [h]; norm_num

/-- C1: For every call to AdjustTimestepSize, the candidate timestep before
save-clamping is dt_new = 0.2 * hmin / (u_max + (u_max - u_max_k1)); when
dt_new exceeds the current dt the adopted candidate is 0.5*dt_new + 0.5*dt,
and when dt_new <= dt it is adopted unchanged; at u_max = 10, u_max_k1 = 8,
hmin = 1 the raw candidate is 0.2/12 = 1/60 (displayed as 0.01667). -/
theorem adjust_candidate_spec :
    ∀ hmin u_max u_max_k1 dt : ℚ,
      dtNewRaw hmin u_max u_max_k1 = 2/10 * hmin / (u_max + (u_max - u_max_k1))
      ∧ (dtNewRaw hmin u_max u_max_k1 > dt →
          dtCandidate dt hmin u_max u_max_k1 =
            1/2 * dtNewRaw hmin u_max u_max_k1 + 1/2 * dt)
      ∧ (dtNewRaw hmin u_max u_max_k1 ≤ dt →
          dtCandidate dt hmin u_max u_max_k1 = dtNewRaw hmin u_max u_max_k1)
      ∧ dtNewRaw 1 10 8 = 1/60 := by
  intro hmin u_max u_max_k1 dt
  refine ⟨rfl, ?_, ?_, by norm_num [dtNewRaw, cfl_target]⟩
  · intro h
    unfold dtCandidate
    rw [if_pos h]
    norm_num
  · intro h
    unfold dtCandidate
    rw [if_neg (not_lt.mpr h)]

/-- Witness for C1: concrete relaxation and pass-through evaluations of the
candidate timestep. -/
theorem adjust_candidate_spec_witness :
    dtCandidate (1/100) 1 10 8 = 1/2 * (1/60) + 1/2 * (1/100)
    ∧ dtCandidate 1 1 10 8 = 1/60 := by
  have h4 := (adjust_candidate_spec 1 10 8 1).2.2.2
  constructor
  · have h := (adjust_candidate_spec 1 10 8 (1/100)).2.1 (by rw [h4]; norm_num)
    rw [h, h4]
  · have h := (adjust_candidate_spec 1 10 8 1).2.2.1 (by rw [h4]; norm_num)
    rw [h, h4]

/-- C2: For every call to AdjustTimestepSize with candidate timestep dt_cand,
letting time_remaining = saveInterval - simTime % saveInterval: if
dt_cand + dt_min >= time_remaining the stored timestep is exactly
time_remaining with save flag true, otherwise the candidate is stored with
flag false; AdjustTimestepSize is exactly this clamp applied to the relaxed
candidate; and simTime = 95, saveInterval = 10, dt_cand = 8 yields (5, true). -/
theorem saveClamp_spec :
    ∀ saveInterval simTime dt_cand u_max u_max_k1 dt hmin : ℚ,
      (dt_cand + dt_min ≥ saveInterval - fmod simTime saveInterval →
        saveClamp saveInterval simTime dt_cand =
          (saveInterval - fmod simTime saveInterval, true))
      ∧ (dt_cand + dt_min < saveInterval - fmod simTime saveInterval →
        saveClamp saveInterval simTime dt_cand = (dt_cand, false))
      ∧ adjustTimestepSize saveInterval simTime u_max u_max_k1 dt hmin =
          saveClamp saveInterval simTime (dtCandidate dt hmin u_max u_max_k1)
      ∧ saveClamp 10 95 8 = (5, true) := by
  intro saveInterval simTime dt_cand u_max u_max_k1 dt hmin
  refine ⟨?_, ?_, rfl, ?_⟩
  · intro h
    unfold saveClamp
    rw [if_pos h]
  · intro h
    unfold saveClamp
    rw [if_neg (not_le.mpr h)]
  · unfold saveClamp
    rw [fmod_95_10, if_pos (by norm_num [dt_min])]
    norm_num

/-- Witness for C2: the clamped and unclamped branches at concrete inputs. -/
theorem saveClamp_spec_witness :
    saveClamp 10 95 8 = (5, true) ∧ saveClamp 10 2 1 = (1, false) := by
  constructor
  · have h := (saveClamp_spec 10 95 8 0 0 0 0).1 (by rw [fmod_95_10]; norm_num [dt_min])
    rw [h, fmod_95_10]
    norm_num
  · exact (saveClamp_spec 10 2 1 0 0 0 0).2.1 (by rw [fmod_2_10]; norm_num [dt_min])

/-- C5: evidence that the dt_min floor is not enforced. At saveInterval = 10,
simTime = 0, u_max = u_max_k1 = 100, dt = 1/500 and hmin = 1, the CFL
candidate equals 1/500 and no branch raises it, so AdjustTimestepSize stores
dt = 1/500 = 0.002, strictly below the configured minimum dt_min = 0.01. -/
theorem adjust_below_floor :
    adjustTimestepSize 10 0 100 100 (1/500) 1 = (1/500, false)
    ∧ (1/500 : ℚ) < dt_min := by
  have hcand : dtCandidate (1/500) 1 100 100 = 1/500 := by
    unfold dtCandidate dtNewRaw cfl_target
    norm_num
  constructor
  · unfold adjustTimestepSize saveClamp
    rw [hcand, fmod_0_10, if_neg (by norm_num [dt_min])]
  · norm_num [dt_min]

/-- C8: updateInletVelocityFromFile returns the exhaustion error exactly when
saveCount exceeds numSlices - 1 (integer arithmetic); in the error case the
result does not depend on the turbulence grids, coordinates or domain bounds
(the guard fires before any interpolation); for an in-range index it returns
the interpolated inlet rows. -/
theorem updateInlet_slice_guard :
    ∀ (saveCount numSlices : ℕ) (uT vT wT : ℕ → List (List ℚ)) (y z : List ℚ)
      (x0 : ℚ) (coords : List (ℚ × ℚ × ℚ)),
      ((∃ msg, updateInletVelocityFromFile saveCount numSlices uT vT wT y z x0 coords =
          Except.error msg) ↔ (saveCount : ℤ) > (numSlices : ℤ) - 1)
      ∧ ((saveCount : ℤ) > (numSlices : ℤ) - 1 →
          ∀ (uT2 vT2 wT2 : ℕ → List (List ℚ)) (y2 z2 : List ℚ) (x02 : ℚ)
            (coords2 : List (ℚ × ℚ × ℚ)),
            updateInletVelocityFromFile saveCount numSlices uT vT wT y z x0 coords =
              updateInletVelocityFromFile saveCount numSlices uT2 vT2 wT2 y2 z2 x02 coords2)
      ∧ ((saveCount : ℤ) ≤ (numSlices : ℤ) - 1 →
          updateInletVelocityFromFile saveCount numSlices uT vT wT y z x0 coords =
            Except.ok (coords.map fun c =>
              if c.1 < x0 + 1/1000000 then
                bilinearInterp c.2.1 c.2.2 y z [uT saveCount, vT saveCount, wT saveCount]
              else [0, 0, 0])) := by
  intro saveCount numSlices uT vT wT y z x0 coords
  by_cases h : (saveCount : ℤ) > (numSlices : ℤ) - 1
  · refine ⟨?_, ?_, ?_⟩
    · simp only [updateInletVelocityFromFile, if_pos h]
      exact ⟨fun _ => h, fun _ => ⟨_, rfl⟩⟩
    · intro _ uT2 vT2 wT2 y2 z2 x02 coords2
      simp only [updateInletVelocityFromFile, if_pos h]
    · intro hle
      exact absurd h (not_lt.mpr hle)
  · refine ⟨?_, fun hgt => absurd hgt h, ?_⟩
    · simp only [updateInletVelocityFromFile, if_neg h]
      constructor
      · rintro ⟨msg, hmsg⟩
        exact absurd hmsg (by simp)
      · intro hgt
        exact absurd hgt h
    · intro _
      simp only [updateInletVelocityFromFile, if_neg h]

/-- Witness for C8: the guard fires at saveCount = 5 with 3 slices and stays
silent at saveCount = 0 with 1 slice. -/
theorem updateInlet_slice_guard_witness :
    updateInletVelocityFromFile 5 3 (fun _ => [[0]]) (fun _ => [[0]]) (fun _ => [[0]])
        [0, 1] [0, 1] 0 [] =
      updateInletVelocityFromFile 5 3 (fun _ => [[7]]) (fun _ => [[7]]) (fun _ => [[7]])
        [2, 3] [2, 3] 9 []
    ∧ updateInletVelocityFromFile 0 1 (fun _ => [[0]]) (fun _ => [[0]]) (fun _ => [[0]])
        [0, 1] [0, 1] 0 [] = Except.ok [] := by
  constructor
  · exact (updateInlet_slice_guard 5 3 (fun _ => [[0]]) (fun _ => [[0]]) (fun _ => [[0]])
      [0, 1] [0, 1] 0 []).2.1 (by decide) (fun _ => [[7]]) (fun _ => [[7]]) (fun _ => [[7]])
      [2, 3] [2, 3] 9 []
  · exact (updateInlet_slice_guard 0 1 (fun _ => [[0]]) (fun _ => [[0]]) (fun _ => [[0]])
      [0, 1] [0, 1] 0 []).2.2 (by decide)

/-- C9: UnsteadySolver.Solve raises the configuration ValueError exactly for a
problem type other than "unsteady"; in that case the result is the error alone
and does not depend on the loop inputs or on the scalar solver state (nothing
runs and nothing is mutated); for type "unsteady" no error is raised and the
time loop runs. -/
theorem unsteadySolve_type_guard :
    ∀ (ptype : String) (saveInterval hmin tFinal : ℚ) (us : List (ℚ × ℚ)) (s : LoopState),
      (ptype ≠ "unsteady" →
        unsteadySolve ptype saveInterval hmin tFinal us s =
          Except.error
            ("UnsteadySolver can only be run with ProblemType = unsteady, not " ++ ptype)
        ∧ ∀ (saveInterval2 hmin2 tFinal2 : ℚ) (us2 : List (ℚ × ℚ)) (s2 : LoopState),
            unsteadySolve ptype saveInterval hmin tFinal us s =
              unsteadySolve ptype saveInterval2 hmin2 tFinal2 us2 s2)
      ∧ (ptype = "unsteady" →
        unsteadySolve ptype saveInterval hmin tFinal us s =
          Except.ok (runLoop saveInterval hmin tFinal us s)) := by
  intro ptype saveInterval hmin tFinal us s
  constructor
  · intro h
    constructor
    · simp only [unsteadySolve, if_neg h]
    · intro saveInterval2 hmin2 tFinal2 us2 s2
      simp only [unsteadySolve, if_neg h]
  · intro h
    simp only [unsteadySolve, if_pos h]

/-- Witness for C9: the guard fires for problem type "steady" and the loop runs
for "unsteady". -/
theorem unsteadySolve_type_guard_witness :
    unsteadySolve "steady" 10 1 50 [] ⟨0, 1/10, 0, false⟩ =
      Except.error ("UnsteadySolver can only be run with ProblemType = unsteady, not "
        ++ "steady")
    ∧ unsteadySolve "unsteady" 10 1 50 [] ⟨0, 1/10, 0, false⟩ =
        Except.ok (runLoop 10 1 50 [] ⟨0, 1/10, 0, false⟩) := by
  constructor
  · exact ((unsteadySolve_type_guard "steady" 10 1 50 [] ⟨0, 1/10, 0, false⟩).1
      (by decide)).1
  · exact (unsteadySolve_type_guard "unsteady" 10 1 50 [] ⟨0, 1/10, 0, false⟩).2 rfl

/-! ### Search-loop lemmas for bilinearInterp -/

lemma findPtrAux_zero (xs : List ℚ) (xi : ℚ) (p : ℕ) : findPtrAux xs xi p 0 = p := rfl

lemma findPtrAux_succ (xs : List ℚ) (xi : ℚ) (p fuel : ℕ) :
    findPtrAux xs xi p (fuel + 1) =
      if xs.getD p 0 < xi ∧ p < xs.length - 1 then findPtrAux xs xi (p + 1) fuel else p := rfl

/-- The search pointer never moves below its start and never passes
len(xs) - 1. -/
lemma findPtrAux_bounds (xs : List ℚ) (xi : ℚ) :
    ∀ fuel p, 1 ≤ p → p ≤ xs.length - 1 →
      1 ≤ findPtrAux xs xi p fuel ∧ findPtrAux xs xi p fuel ≤ xs.length - 1 := by
  intro fuel
  induction fuel with
  | zero => intro p h1 h2; exact ⟨h1, h2⟩
  | succ fuel ih =>
    intro p h1 h2
    rw [findPtrAux_succ]
    by_cases h : xs.getD p 0 < xi ∧ p < xs.length - 1
    · rw [if_pos h]
      exact ih (p + 1) (by omega) (by omega)
    · rw [if_neg h]
      exact ⟨h1, h2⟩

/-- The bracketing index found by the search loop lies in [1, len - 1]. -/
lemma findPtr_bounds (xs : List ℚ) (xi : ℚ) (hlen : 2 ≤ xs.length) :
    1 ≤ findPtr xs xi ∧ findPtr xs xi ≤ xs.length - 1 :=
  findPtrAux_bounds xs xi xs.length 1 le_rfl (by omega)

/-- Strictly ascending coordinate arrays are strictly increasing under getD. -/
lemma sorted_getD_lt (xs : List ℚ) (hs : List.Sorted (· < ·) xs) (a b : ℕ)
    (hab : a < b) (hb : b < xs.length) : xs.getD a 0 < xs.getD b 0 := by
  have ha : a < xs.length := lt_trans hab hb
  rw [List.getD_eq_get xs 0 ha, List.getD_eq_get xs 0 hb]
  exact hs.rel_get_of_lt hab

/-- When the query point is the i-th node with i >= 1, the search loop stops
exactly at i. -/
lemma findPtrAux_node (xs : List ℚ) (hs : List.Sorted (· < ·) xs) (i : ℕ)
    (hi1 : 1 ≤ i) (hi2 : i ≤ xs.length - 1) :
    ∀ fuel p, 1 ≤ p → p ≤ i → i - p ≤ fuel →
      findPtrAux xs (xs.getD i 0) p fuel = i := by
  intro fuel
  induction fuel with
  | zero =>
    intro p _ hp2 hfuel
    have hpi : p = i := by omega
    rw [hpi, findPtrAux_zero]
  | succ fuel ih =>
    intro p hp1 hp2 hfuel
    rw [findPtrAux_succ]
    rcases eq_or_lt_of_le hp2 with heq | hlt
    · rw [heq, if_neg (fun hcon => lt_irrefl _ hcon.1)]
    · rw [if_pos ⟨sorted_getD_lt xs hs p i hlt (by omega), by omega⟩]
      exact ih (p + 1) (by omega) (by omega) (by omega)

lemma findPtr_node_pos (xs : List ℚ) (hs : List.Sorted (· < ·) xs) (i : ℕ)
    (hi1 : 1 ≤ i) (hi2 : i ≤ xs.length - 1) :
    findPtr xs (xs.getD i 0) = i :=
  findPtrAux_node xs hs i hi1 hi2 xs.length 1 le_rfl hi1 (by omega)

/-- When the query point is the 0-th node the search loop stops at its start
index 1. -/
lemma findPtr_node_zero (xs : List ℚ) (hs : List.Sorted (· < ·) xs)
    (hlen : 2 ≤ xs.length) : findPtr xs (xs.getD 0 0) = 1 := by
  unfold findPtr
  obtain ⟨m, hm⟩ : ∃ m, xs.length = m + 1 := ⟨xs.length - 1, by omega⟩
  rw [hm, findPtrAux_succ]
  rw [if_neg (fun hcon =>
    lt_asymm (sorted_getD_lt xs hs 0 1 one_pos (by omega)) hcon.1)]

/-! ### Corner and affine evaluations of the interpolation formula -/

lemma interpFormula_c11 (x1 x2 y1 y2 u11 u12 u21 u22 : ℚ) (hx : x1 ≠ x2) (hy : y1 ≠ y2) :
    interpFormula x1 y1 x1 x2 y1 y2 u11 u12 u21 u22 = u11 := by
  have hx2 : x2 - x1 ≠ 0 := sub_ne_zero.mpr (Ne.symm hx)
  have hy2 : y2 - y1 ≠ 0 := sub_ne_zero.mpr (Ne.symm hy)
  unfold interpFormula
  field_simp
  ring

lemma interpFormula_c12 (x1 x2 y1 y2 u11 u12 u21 u22 : ℚ) (hx : x1 ≠ x2) (hy : y1 ≠ y2) :
    interpFormula x1 y2 x1 x2 y1 y2 u11 u12 u21 u22 = u12 := by
  have hx2 : x2 - x1 ≠ 0 := sub_ne_zero.mpr (Ne.symm hx)
  have hy2 : y2 - y1 ≠ 0 := sub_ne_zero.mpr (Ne.symm hy)
  unfold interpFormula
  field_simp
  ring

lemma interpFormula_c21 (x1 x2 y1 y2 u11 u12 u21 u22 : ℚ) (hx : x1 ≠ x2) (hy : y1 ≠ y2) :
    interpFormula x2 y1 x1 x2 y1 y2 u11 u12 u21 u22 = u21 := by
  have hx2 : x2 - x1 ≠ 0 := sub_ne_zero.mpr (Ne.symm hx)
  have hy2 : y2 - y1 ≠ 0 := sub_ne_zero.mpr (Ne.symm hy)
  unfold interpFormula
  field_simp
  ring

lemma interpFormula_c22 (x1 x2 y1 y2 u11 u12 u21 u22 : ℚ) (hx : x1 ≠ x2) (hy : y1 ≠ y2) :
    interpFormula x2 y2 x1 x2 y1 y2 u11 u12 u21 u22 = u22 := by
  have hx2 : x2 - x1 ≠ 0 := sub_ne_zero.mpr (Ne.symm hx)
  have hy2 : y2 - y1 ≠ 0 := sub_ne_zero.mpr (Ne.symm hy)
  unfold interpFormula
  field_simp
  ring

/-- The area-weighted average reproduces affine fields exactly, at every query
point and for every bracketing cell. -/
lemma interpFormula_affine (α β γ xi yi x1 x2 y1 y2 : ℚ) (hx : x1 ≠ x2) (hy : y1 ≠ y2) :
    interpFormula xi yi x1 x2 y1 y2 (α * x1 + β * y1 + γ) (α * x1 + β * y2 + γ)
      (α * x2 + β * y1 + γ) (α * x2 + β * y2 + γ) = α * xi + β * yi + γ := by
  have hx2 : x2 - x1 ≠ 0 := sub_ne_zero.mpr (Ne.symm hx)
  have hy2 : y2 - y1 ≠ 0 := sub_ne_zero.mpr (Ne.symm hy)
  unfold interpFormula
  field_simp
  ring

/-- bilinearInterp1 is the corner-weighted formula evaluated at the bracketing
indices produced by the two search loops. -/
lemma bilinearInterp1_eq (xi yi : ℚ) (x y : List ℚ) (u : List (List ℚ)) :
    bilinearInterp1 xi yi x y u =
      interpFormula xi yi (x.getD (findPtr x xi - 1) 0) (x.getD (findPtr x xi) 0)
        (y.getD (findPtr y yi - 1) 0) (y.getD (findPtr y yi) 0)
        ((u.getD (findPtr y yi - 1) []).getD (findPtr x xi - 1) 0)
        ((u.getD (findPtr y yi) []).getD (findPtr x xi - 1) 0)
        ((u.getD (findPtr y yi - 1) []).getD (findPtr x xi) 0)
        ((u.getD (findPtr y yi) []).getD (findPtr x xi) 0) := rfl

/-- At a grid node the interpolation returns the stored value of that node,
for an arbitrary grid of values. -/
lemma bilinearInterp1_node (x y : List ℚ) (hx : List.Sorted (· < ·) x)
    (hy : List.Sorted (· < ·) y) (hlx : 2 ≤ x.length) (hly : 2 ≤ y.length)
    (i j : ℕ) (hi : i < x.length) (hj : j < y.length) (u : List (List ℚ)) :
    bilinearInterp1 (x.getD i 0) (y.getD j 0) x y u = (u.getD j []).getD i 0 := by
  rw [bilinearInterp1_eq]
  rcases Nat.eq_zero_or_pos i with hi0 | hip
  · rcases Nat.eq_zero_or_pos j with hj0 | hjp
    · rw [hi0, hj0, findPtr_node_zero x hx hlx, findPtr_node_zero y hy hly]
      exact interpFormula_c11 _ _ _ _ _ _ _ _
        (ne_of_lt (sorted_getD_lt x hx 0 1 one_pos (by omega)))
        (ne_of_lt (sorted_getD_lt y hy 0 1 one_pos (by omega)))
    · rw [hi0, findPtr_node_zero x hx hlx, findPtr_node_pos y hy j hjp (by omega)]
      exact interpFormula_c12 _ _ _ _ _ _ _ _
        (ne_of_lt (sorted_getD_lt x hx 0 1 one_pos (by omega)))
        (ne_of_lt (sorted_getD_lt y hy (j - 1) j (by omega) hj))
  · rcases Nat.eq_zero_or_pos j with hj0 | hjp
    · rw [hj0, findPtr_node_pos x hx i hip (by omega), findPtr_node_zero y hy hly]
      exact interpFormula_c21 _ _ _ _ _ _ _ _
        (ne_of_lt (sorted_getD_lt x hx (i - 1) i (by omega) hi))
        (ne_of_lt (sorted_getD_lt y hy 0 1 one_pos (by omega)))
    · rw [findPtr_node_pos x hx i hip (by omega), findPtr_node_pos y hy j hjp (by omega)]
      exact interpFormula_c22 _ _ _ _ _ _ _ _
        (ne_of_lt (sorted_getD_lt x hx (i - 1) i (by omega) hi))
        (ne_of_lt (sorted_getD_lt y hy (j - 1) j (by omega) hj))

/-- On grids sampled from an affine field the interpolation reproduces the
field exactly at every query point. -/
lemma bilinearInterp1_affine (x y : List ℚ) (hx : List.Sorted (· < ·) x)
    (hy : List.Sorted (· < ·) y) (hlx : 2 ≤ x.length) (hly : 2 ≤ y.length)
    (α β γ : ℚ) (u : List (List ℚ))
    (hval : ∀ a, a < x.length → ∀ b, b < y.length →
      (u.getD b []).getD a 0 = α * x.getD a 0 + β * y.getD b 0 + γ)
    (xi yi : ℚ) : bilinearInterp1 xi yi x y u = α * xi + β * yi + γ := by
  obtain ⟨hp1, hp2⟩ := findPtr_bounds x xi hlx
  obtain ⟨hq1, hq2⟩ := findPtr_bounds y yi hly
  rw [bilinearInterp1_eq,
    hval (findPtr x xi - 1) (by omega) (findPtr y yi - 1) (by omega),
    hval (findPtr x xi - 1) (by omega) (findPtr y yi) (by omega),
    hval (findPtr x xi) (by omega) (findPtr y yi - 1) (by omega),
    hval (findPtr x xi) (by omega) (findPtr y yi) (by omega)]
  exact interpFormula_affine α β γ xi yi _ _ _ _
    (ne_of_lt (sorted_getD_lt x hx (findPtr x xi - 1) (findPtr x xi) (by omega) (by omega)))
    (ne_of_lt (sorted_getD_lt y hy (findPtr y yi - 1) (findPtr y yi) (by omega) (by omega)))

/-- C4: For strictly ascending coordinate arrays of length at least 2,
bilinearInterp returns exactly the stored grid values when the query point is
a grid node, for every grid in velList; and on a grid sampled from the affine
field f(y, z) = alpha*y + beta*z + gamma it returns f at every query point
inside the grid extent. -/
theorem bilinearInterp_node_and_affine :
    ∀ x y : List ℚ, List.Sorted (· < ·) x → List.Sorted (· < ·) y →
      2 ≤ x.length → 2 ≤ y.length →
      (∀ i j : ℕ, i < x.length → j < y.length → ∀ velList : List (List (List ℚ)),
        bilinearInterp (x.getD i 0) (y.getD j 0) x y velList =
          velList.map (fun u => (u.getD j []).getD i 0))
      ∧ (∀ (α β γ : ℚ) (u : List (List ℚ)),
          (∀ a, a < x.length → ∀ b, b < y.length →
            (u.getD b []).getD a 0 = α * x.getD a 0 + β * y.getD b 0 + γ) →
          ∀ xi yi : ℚ, x.getD 0 0 ≤ xi → xi ≤ x.getD (x.length - 1) 0 →
            y.getD 0 0 ≤ yi → yi ≤ y.getD (y.length - 1) 0 →
            bilinearInterp xi yi x y [u] = [α * xi + β * yi + γ]) := by
  intro x y hx hy hlx hly
  constructor
  · intro i j hi hj velList
    exact List.map_congr_left
      (fun u _ => bilinearInterp1_node x y hx hy hlx hly i j hi hj u)
  · intro α β γ u hval xi yi _ _ _ _
    unfold bilinearInterp
    rw [List.map_singleton, bilinearInterp1_affine x y hx hy hlx hly α β γ u hval xi yi]

/-- Witness for C4: node reproduction and affine reproduction on the grid
x = y = [0, 1] with f(p, q) = p + 2q + 3. -/
theorem bilinearInterp_node_and_affine_witness :
    bilinearInterp 1 1 [0, 1] [0, 1] [[[3, 4], [5, 6]]] = [6]
    ∧ bilinearInterp (1/2) (1/2) [0, 1] [0, 1] [[[3, 4], [5, 6]]]
        = [1 * (1/2) + 2 * (1/2) + 3] := by
  have h := bilinearInterp_node_and_affine [0, 1] [0, 1]
    (by decide) (by decide) (by decide) (by decide)
  constructor
  · have h1 := h.1 1 1 (by decide) (by decide) [[[3, 4], [5, 6]]]
    simpa using h1
  · have h2 := h.2 1 2 3 [[3, 4], [5, 6]]
      (by
        intro a ha b hb
        have ha2 : a < 2 := by simpa using ha
        have hb2 : b < 2 := by simpa using hb
        interval_cases a <;> interval_cases b <;> norm_num)
      (1/2) (1/2) (by norm_num) (by norm_num) (by norm_num) (by norm_num)
    simpa using h2

/-- C10: For coordinate arrays of length at least 2, both bracketing indices
computed by bilinearInterp lie in [1, len - 1], so every array access of the
interpolation is in bounds, and for every query point (including points
outside the grid extent) the result is the corner-weighted formula on the
nearest edge cell, not an out-of-range access. -/
theorem bilinearInterp_access_bounds :
    ∀ (x y : List ℚ) (xi yi : ℚ), 2 ≤ x.length → 2 ≤ y.length →
      (1 ≤ findPtr x xi ∧ findPtr x xi ≤ x.length - 1
        ∧ 1 ≤ findPtr y yi ∧ findPtr y yi ≤ y.length - 1)
      ∧ ∀ u : List (List ℚ),
          bilinearInterp1 xi yi x y u =
            interpFormula xi yi (x.getD (findPtr x xi - 1) 0) (x.getD (findPtr x xi) 0)
              (y.getD (findPtr y yi - 1) 0) (y.getD (findPtr y yi) 0)
              ((u.getD (findPtr y yi - 1) []).getD (findPtr x xi - 1) 0)
              ((u.getD (findPtr y yi) []).getD (findPtr x xi - 1) 0)
              ((u.getD (findPtr y yi - 1) []).getD (findPtr x xi) 0)
              ((u.getD (findPtr y yi) []).getD (findPtr x xi) 0) := by
  intro x y xi yi hlx hly
  obtain ⟨hp1, hp2⟩ := findPtr_bounds x xi hlx
  obtain ⟨hq1, hq2⟩ := findPtr_bounds y yi hly
  exact ⟨⟨hp1, hp2, hq1, hq2⟩, fun u => bilinearInterp1_eq xi yi x y u⟩

/-- Witness for C10: queries far outside the grid on both sides still produce
bracketing indices inside [1, len - 1]. -/
theorem bilinearInterp_access_bounds_witness :
    1 ≤ findPtr [0, 1] 5 ∧ findPtr [0, 1] 5 ≤ List.length [0, 1] - 1
    ∧ 1 ≤ findPtr [0, 1] (-3) ∧ findPtr [0, 1] (-3) ≤ List.length [0, 1] - 1 :=
  (bilinearInterp_access_bounds [0, 1] [0, 1] 5 (-3) (by decide) (by decide)).1

/-! ### Turbine force and rotation matrices -/

/-- Accumulating fold written as the initial value plus a sum. -/
lemma foldl_add_map {α M : Type} [AddCommMonoid M] (g : α → M) :
    ∀ (l : List α) (init : M), l.foldl (fun a x => a + g x) init = init + (l.map g).sum := by
  intro l
  induction l with
  | nil => intro init; simp
  | cons t ts ih =>
    intro init
    rw [List.foldl_cons, ih, List.map_cons, List.sum_cons, add_assoc]

/-- Nested accumulating folds written as the initial value plus a double sum. -/
lemma foldl_nested_add {α M : Type} [AddCommMonoid M] (g : α → ℕ → M) (n : ℕ) :
    ∀ (l : List α) (init : M),
      l.foldl (fun acc t => (List.range n).foldl (fun a d => a + g t d) acc) init =
        init + (l.map fun t => ((List.range n).map (g t)).sum).sum := by
  intro l
  induction l with
  | nil => intro init; simp
  | cons t ts ih =>
    intro init
    rw [List.foldl_cons, ih, foldl_add_map (g t), List.map_cons, List.sum_cons, add_assoc]

/-- C6: The force field of UpdateTurbineForce is superposition: at every sample
point, the value accumulated over the whole farm (before sub-threshold
truncation) equals the componentwise sum, over the turbines of the farm, of
the field computed for that turbine alone. -/
theorem farmForce_superposition :
    ∀ (tpp : ℕ) (ts : List Turbine) (p u : ℝ × ℝ),
      farmForceAt tpp ts p u = (ts.map fun t => farmForceAt tpp [t] p u).sum := by
  intro tpp ts p u
  have hzero : ((0, 0) : ℝ × ℝ) = 0 := rfl
  have hsingle : ∀ t : Turbine, farmForceAt tpp [t] p u =
      ((List.range tpp).map fun d => rotorForceAt tpp t d p u).sum := by
    intro t
    unfold farmForceAt
    rw [List.foldl_cons, List.foldl_nil, foldl_add_map (fun d => rotorForceAt tpp t d p u),
      hzero, zero_add]
  have hfarm : farmForceAt tpp ts p u =
      (ts.map fun t => ((List.range tpp).map fun d => rotorForceAt tpp t d p u).sum).sum := by
    unfold farmForceAt
    rw [foldl_nested_add (fun t d => rotorForceAt tpp t d p u) tpp ts (0, 0), hzero, zero_add]
  rw [hfarm]
  exact (List.map_congr_left fun t _ => (hsingle t).symm) ▸ rfl

/-- C7: For every yaw angle the rotation matrix of RotationMatrix is
orthogonal, in both the 2D and the 3D case, and at yaw 0 it is the identity. -/
theorem rotationMatrix_orthogonal :
    ∀ θ : ℝ,
      RotationMatrix2 θ * (RotationMatrix2 θ).transpose = 1
      ∧ RotationMatrix3 θ * (RotationMatrix3 θ).transpose = 1
      ∧ RotationMatrix2 0 = 1
      ∧ RotationMatrix3 0 = 1 := by
  intro θ
  have hpy : Real.sin θ ^ 2 + Real.cos θ ^ 2 = 1 := Real.sin_sq_add_cos_sq θ
  refine ⟨?_, ?_, ?_, ?_⟩
  · ext i j
    fin_cases i <;> fin_cases j <;>
      simp [RotationMatrix2, Matrix.mul_apply, Matrix.transpose, Fin.sum_univ_succ,
        Matrix.one_apply, Matrix.vecHead, Matrix.vecTail] <;>
      (first
        | ring1
        | linear_combination hpy)
  · ext i j
    fin_cases i <;> fin_cases j <;>
      simp [RotationMatrix3, Matrix.mul_apply, Matrix.transpose, Fin.sum_univ_succ,
        Matrix.one_apply, Matrix.vecHead, Matrix.vecTail] <;>
      (first
        | ring1
        | linear_combination hpy)
  · ext i j
    fin_cases i <;> fin_cases j <;>
      simp [RotationMatrix2, Matrix.one_apply, Matrix.vecHead, Matrix.vecTail]
  · ext i j
    fin_cases i <;> fin_cases j <;>
      simp [RotationMatrix3, Matrix.one_apply, Matrix.vecHead, Matrix.vecTail]

/-- C3 counterexample: the thrust factor is negative outside the rotor disk.
At R = 1, induction factor a = 1/2 and radial distance r = 3/2 the sinusoidal
shape term equals 3/2 * sin(3pi/2) + 1/2 = -1, so F < 0, refuting
non-negativity of F at every radial distance arising from the sample
coordinates. -/
theorem thrustF_negative_beyond_rotor : thrustF 1 (1/2) (3/2) < 0 := by
  have hs : Real.sin (Real.pi * (3/2) / 1) = -1 := by
    have h32 : Real.pi * (3/2) / 1 = Real.pi + Real.pi / 2 := by ring
    rw [h32, Real.sin_add]
    simp
  have heq : thrustF 1 (1/2) (3/2) = -(Real.pi * (200000 / 81831)) := by
    unfold thrustF
    rw [hs]
    ring
  rw [heq]
  have hp := Real.pi_pos
  linarith

/-- C3 (amended): the thrust factor at r = 0 equals
4*0.5*pi*R^2*a/(1-a)*0.5/0.81831, and F is non-negative for every induction
factor 0 <= a < 1 at every radial distance inside the rotor disk, |r| <= R
(outside the disk F can be negative, see the counterexample). -/
theorem thrustF_center_and_nonneg :
    ∀ R ma : ℝ,
      thrustF R ma 0 = 4 * 0.5 * Real.pi * R ^ 2 * ma / (1 - ma) * 0.5 / 0.81831
      ∧ (∀ r : ℝ, 0 ≤ ma → ma < 1 → |r| ≤ R → 0 ≤ thrustF R ma r) := by
  intro R ma
  constructor
  · unfold thrustF
    rw [zero_div, zero_mul, zero_add]
    ring
  · intro r hma0 hma1 hr
    have hR0 : 0 ≤ R := le_trans (abs_nonneg r) hr
    have hA : 0 ≤ 4 * 0.5 * (Real.pi * R ^ 2) * ma / (1 - ma) := by
      apply div_nonneg
      · have hpos : (0:ℝ) ≤ 4 * 0.5 * (Real.pi * R ^ 2) := by positivity
        exact mul_nonneg hpos hma0
      · linarith
    have hsh : 0 ≤ r / R * Real.sin (Real.pi * r / R) + 0.5 := by
      rcases eq_or_lt_of_le hR0 with hR0eq | hRpos
      · rw [← hR0eq]
        simp only [div_zero, zero_mul, zero_add]
        norm_num
      · have harg : Real.pi * r / R = Real.pi * (r / R) := by ring
        have ht1 : |r / R| ≤ 1 := by
          rw [abs_div, abs_of_pos hRpos, div_le_one hRpos]
          exact hr
        have key : 0 ≤ r / R * Real.sin (Real.pi * (r / R)) := by
          rcases le_or_lt 0 (r / R) with htpos | htneg
          · apply mul_nonneg htpos
            apply Real.sin_nonneg_of_nonneg_of_le_pi
            · exact mul_nonneg Real.pi_pos.le htpos
            · have hle1 : r / R ≤ 1 := le_trans (le_abs_self _) ht1
              nlinarith [mul_nonneg Real.pi_pos.le (by linarith : (0:ℝ) ≤ 1 - r / R)]
          · have hneg1 : -(r / R) ≤ 1 := by
              have h := le_abs_self (-(r / R))
              rw [abs_neg] at h
              exact le_trans h ht1
            have h2 : 0 ≤ Real.sin (Real.pi * (-(r / R))) := by
              apply Real.sin_nonneg_of_nonneg_of_le_pi
              · exact mul_nonneg Real.pi_pos.le (by linarith)
              · nlinarith [mul_nonneg Real.pi_pos.le (by linarith : (0:ℝ) ≤ 1 + r / R)]
            have h3 : Real.sin (Real.pi * (r / R)) = -Real.sin (Real.pi * (-(r / R))) := by
              rw [mul_neg, Real.sin_neg, neg_neg]
            have h4 : Real.sin (Real.pi * (r / R)) ≤ 0 := by rw [h3]; linarith
            nlinarith [mul_nonneg (neg_nonneg.mpr (le_of_lt htneg)) (neg_nonneg.mpr h4)]
        rw [harg]
        linarith
    unfold thrustF
    apply div_nonneg _ (by norm_num : (0:ℝ) ≤ 0.81831)
    have h10 : 4 * 0.5 * (Real.pi * R ^ 2) * ma / (1 - ma)
        * (r / R * Real.sin (Real.pi * r / R) + 0.5) * 1.0
        = 4 * 0.5 * (Real.pi * R ^ 2) * ma / (1 - ma)
          * (r / R * Real.sin (Real.pi * r / R) + 0.5) := by norm_num
    rw [h10]
    exact mul_nonneg hA hsh

/-- Witness for C3 (amended): the non-negativity clause at R = 1, a = 1/2,
r = 1/2. -/
theorem thrustF_center_and_nonneg_witness :
    (0:ℝ) ≤ 1/2 ∧ (1/2:ℝ) < 1 ∧ |(1/2:ℝ)| ≤ 1 ∧ 0 ≤ thrustF 1 (1/2) (1/2) :=
  ⟨by norm_num, by norm_num,
    by rw [abs_of_nonneg (by norm_num : (0:ℝ) ≤ 1/2)]; norm_num,
    (thrustF_center_and_nonneg 1 (1/2)).2 (1/2) (by norm_num) (by norm_num)
      (by rw [abs_of_nonneg (by norm_num : (0:ℝ) ≤ 1/2)]; norm_num)⟩

end WindSE
